import Mathlib

/-!
# Verification of the Rentenversicherer form-filling pipeline

Shallow embedding of the field model (`types.ts`), the fill engine
(`services/pdfService.ts`) and the reconciliation store
(`components/ReviewPanel.tsx`), with theorems settling the frozen claims
about the coordinate transform, the two fill branches, and the mutation,
sorting and filtering behaviour of the review store.
-/

namespace Renten

/-! ## Data model (src/types.ts) -/

/-- `ValidationResult.status` from `types.ts`. -/
inductive VStatus where
  | VALID
  | WARNING
  | INVALID
deriving DecidableEq, Repr

/-- `ValidationResult` from `types.ts`. -/
structure ValidationResult where
  status : VStatus
  message : Option String := none
  suggestion : Option String := none
deriving DecidableEq, Repr

/-- `ExtractedField.coordinates` from `types.ts` (0-1000 scale, top-left origin). -/
structure Coordinates where
  pageIndex : Int
  x : ℚ
  y : ℚ
deriving DecidableEq, Repr

/-- `ExtractedField` from `types.ts`. -/
structure ExtractedField where
  key : Option String := none
  label : String := ""
  value : String := ""
  sourceContext : Option String := none
  validation : Option ValidationResult := none
  isVerified : Bool := false
  coordinates : Option Coordinates := none
deriving DecidableEq, Repr

/-! ## PDF documents as seen through pdf-lib (src/services/pdfService.ts) -/

/-- State of an AcroForm checkbox. `indeterminate` models a box that was
neither checked nor unchecked by the writer. -/
inductive CheckboxState where
  | checked
  | unchecked
  | indeterminate
deriving DecidableEq, Repr

/-- An interactive form field of the loaded document (the pdf-lib classes
`PDFTextField` / `PDFCheckBox` / other field classes). -/
inductive PdfFormField where
  | textField (name : String) (text : String)
  | checkBox (name : String) (state : CheckboxState)
  | otherField (name : String)
deriving DecidableEq, Repr

/-- `field.getName()`. -/
def PdfFormField.name : PdfFormField → String
  | .textField n _ => n
  | .checkBox n _ => n
  | .otherField n => n

/-- `field.constructor.name`, the runtime class tag used by `getPdfFields`. -/
def PdfFormField.ctorName : PdfFormField → String
  | .textField _ _ => "PDFTextField"
  | .checkBox _ _ => "PDFCheckBox"
  | .otherField _ => "PDFField"

/-- A physical page: `page.getSize()` gives `{width, height}`. -/
structure Page where
  width : ℚ
  height : ℚ
deriving DecidableEq, Repr

/-- A successfully loaded document: its form fields and its pages. -/
structure PdfDoc where
  form : List PdfFormField
  pages : List Page
deriving DecidableEq, Repr

/-- Input bytes as classified by `PDFDocument.load`: either a well-formed
document or corrupted / non-PDF bytes on which `load` throws. -/
inductive PdfInput where
  | wellFormed (doc : PdfDoc)
  | corrupt
deriving DecidableEq, Repr

/-- `PDFDocument.load`: succeeds on a well-formed document, throws
(modelled as `Except.error`) on anything else. -/
def loadPdf : PdfInput → Except String PdfDoc
  | .wellFormed doc => .ok doc
  | .corrupt => .error "Failed to parse PDF document"

/-- `PdfFieldInfo` from `pdfService.ts`. -/
structure PdfFieldInfo where
  name : String
  type : String
deriving DecidableEq, Repr

/-- The `try` body of `getPdfFields` (`pdfService.ts` lines 9-22): load the
document and map every form field to its name and class tag; any failure
propagates. -/
def getPdfFieldsTry (input : PdfInput) : Except String (List PdfFieldInfo) :=
  (loadPdf input).map (fun doc => doc.form.map (fun f => ⟨f.name, f.ctorName⟩))

/-- `getPdfFields`: the `catch` clause converts any error into the empty
list (logged with `console.warn`, never rethrown). The result is kept as
an `Except` so that "no error escapes the boundary" is expressible. -/
def getPdfFields (input : PdfInput) : Except String (List PdfFieldInfo) :=
  match getPdfFieldsTry input with
  | .ok l => .ok l
  | .error _ => .ok []

/-! ## Coordinate transform (pdfService.ts, overlay branch of createFilledPdf) -/

/-- The coordinate transform inlined at `pdfService.ts` lines 72-83:
`pdfX = (x / 1000) * width`, `pdfY = height - (y / 1000) * height`. -/
def toPhysical (x y width height : ℚ) : ℚ × ℚ :=
  (x / 1000 * width, height - y / 1000 * height)

/-- The inverse direction of the round-trip property of spec section 4.6 (not in the source,
which only converts one way): recover the normalized top-left-origin
coordinates from physical bottom-left-origin ones. -/
def fromPhysical (px py width height : ℚ) : ℚ × ℚ :=
  (px / width * 1000, (height - py) / height * 1000)

/-! ## JavaScript string helpers -/

/-- JavaScript `String.prototype.toLowerCase` as used in `createFilledPdf`
(ASCII case folding, which covers the compared literals `"true"`/`"yes"`). -/
def jsToLower (s : String) : String := ⟨s.data.map Char.toLower⟩

/-- Case-insensitive string equality (both sides lowered). -/
def caseInsensitiveEq (a b : String) : Bool := jsToLower a == jsToLower b

/-! ## Fill engine, NamedFields branch (pdfService.ts lines 28-55) -/

/-- The checkbox condition from `pdfService.ts` line 45:
`value.toLowerCase() === "true" || value.toLowerCase() === "yes"`. -/
def checkboxChecked (value : String) : Bool :=
  jsToLower value == "true" || jsToLower value == "yes"

/-- Writing one value onto a looked-up form field (`pdfService.ts` lines
41-48): text fields receive the literal string; checkboxes are checked or
explicitly unchecked by the condition above; other field classes are left
untouched. -/
def applyValueToField (field : PdfFormField) (value : String) : PdfFormField :=
  match field with
  | .textField n _ => .textField n value
  | .checkBox n _ =>
      .checkBox n (if checkboxChecked value then .checked else .unchecked)
  | .otherField n => .otherField n

/-- The `fieldMap` built at `pdfService.ts` lines 32-35:
`fields.forEach(f => { if (f.key) fieldMap[f.key] = f.value })`.
JavaScript truthiness makes `if (f.key)` false both for a missing key and
for the empty string. Later assignments overwrite earlier ones; the map is
modelled by its lookup function. -/
def buildFieldMap (fields : List ExtractedField) : String → Option String :=
  fields.foldl
    (fun m f =>
      match f.key with
      | some k => if k = "" then m else fun q => if q = k then some f.value else m q
      | none => m)
    (fun _ => none)

/-- The last field in iteration order whose key is `k` (specification-side
description of last-write-wins). -/
def lastFieldWithKey (fields : List ExtractedField) (k : String) : Option ExtractedField :=
  fields.reverse.find? (fun f => f.key == some k)

/-! ## Fill engine, CoordinateOverlay branch (pdfService.ts lines 57-99) -/

/-- One `page.drawText` call: target page, physical position, text, size. -/
structure DrawOp where
  pageIndex : Nat
  x : ℚ
  y : ℚ
  text : String
  size : ℚ
deriving DecidableEq, Repr

/-- One iteration of the overlay loop (`pdfService.ts` lines 60-97) for a
single field: skip on empty value, missing coordinates or out-of-range
page index; otherwise access the page (an out-of-bounds access would
throw, modelled as `Except.error`) and draw the value at the transformed
position, nudged 4 points down, at size 10. -/
def overlayField (pages : List Page) (f : ExtractedField) : Except String (List DrawOp) :=
  if f.value = "" then .ok []
  else
    match f.coordinates with
    | none => .ok []
    | some c =>
      if c.pageIndex < 0 ∨ (pages.length : Int) ≤ c.pageIndex then .ok []
      else
        match pages[c.pageIndex.toNat]? with
        | none => .error "page index out of range"
        | some page =>
          let p := toPhysical c.x c.y page.width page.height
          .ok [{ pageIndex := c.pageIndex.toNat, x := p.1, y := p.2 - 4,
                 text := f.value, size := 10 }]

/-- The saved output of `createFilledPdf` in overlay mode: the pages of the
document (re-rendered in full by `pdfDoc.save()`) plus the draw operations
applied to them. -/
structure SavedPdf where
  pages : List Page
  draws : List DrawOp
deriving DecidableEq, Repr

/-- The overlay branch of `createFilledPdf`: iterate the fields, collect
the draw operations, and always `save()` the full document at the end. -/
def createFilledPdfOverlay (pages : List Page) (fields : List ExtractedField) :
    Except String SavedPdf :=
  (fields.foldlM (fun acc f => (overlayField pages f).map (fun l => acc ++ l)) []).map
    (fun ds => { pages := pages, draws := ds })

/-- The skip conditions of the overlay loop for one field: empty value,
missing coordinates, or page index outside `[0, page count)`. -/
def skipsOverlayField (pages : List Page) (f : ExtractedField) : Prop :=
  f.value = "" ∨ f.coordinates = none ∨
    ∃ c, f.coordinates = some c ∧
      (c.pageIndex < 0 ∨ (pages.length : Int) ≤ c.pageIndex)

/-! ## Reconciliation store (src/components/ReviewPanel.tsx) -/

/-- `handleUpdate` (`ReviewPanel.tsx` lines 118-128) on one field: set the
new value, auto-verify, and rebuild `validation` by spreading the prior
validation object and then overwriting `status` and `message` — the spread
keeps the prior `suggestion`. A missing prior validation spreads to
nothing. -/
def handleUpdateField (f : ExtractedField) (newValue : String) : ExtractedField :=
  { f with
    value := newValue
    isVerified := true
    validation := some
      { status := .VALID
        message := some "Manually verified"
        suggestion := f.validation.bind (fun v => v.suggestion) } }

/-- `handleUpdate` at store level: copy the list and replace the element
at `index`. -/
def handleUpdate (fields : List ExtractedField) (index : Nat) (newValue : String) :
    List ExtractedField :=
  match fields[index]? with
  | some f => fields.set index (handleUpdateField f newValue)
  | none => fields

/-- `toggleVerify` (`ReviewPanel.tsx` lines 130-137) on one field. -/
def toggleVerifyField (f : ExtractedField) : ExtractedField :=
  { f with isVerified := !f.isVerified }

/-- `toggleVerify` at store level. -/
def toggleVerify (fields : List ExtractedField) (index : Nat) : List ExtractedField :=
  match fields[index]? with
  | some f => fields.set index (toggleVerifyField f)
  | none => fields

/-- `applySuggestion` (`ReviewPanel.tsx` lines 139-144) on one field:
`if (field.validation?.suggestion) handleUpdate(index, suggestion)`.
JavaScript truthiness treats an empty-string suggestion as absent. -/
def applySuggestionField (f : ExtractedField) : ExtractedField :=
  match f.validation.bind (fun v => v.suggestion) with
  | some s => if s = "" then f else handleUpdateField f s
  | none => f

/-- `applySuggestion` at store level. -/
def applySuggestion (fields : List ExtractedField) (index : Nat) : List ExtractedField :=
  match fields[index]? with
  | some f => fields.set index (applySuggestionField f)
  | none => fields

/-- Clamp a coordinate into the normalized `[0, 1000]` range. -/
def clamp1000 (v : ℚ) : ℚ := max 0 (min v 1000)

/-- Modelled from the spec: `moveCoordinates` (spec §4.1) has no
implementation under src/ — only the spec describes it. Per its words it
replaces `x, y` (clamped to `[0, 1000]`), sets `isVerified := true`, and
returns the field unchanged when it has no coordinates. -/
def moveCoordinatesField (f : ExtractedField) (x y : ℚ) : ExtractedField :=
  match f.coordinates with
  | some c =>
      { f with
        coordinates := some { c with x := clamp1000 x, y := clamp1000 y }
        isVerified := true }
  | none => f

/-- Modelled from the spec: `moveCoordinates` at store level, replacing the
one element at `index` like the other mutations. -/
def moveCoordinates (fields : List ExtractedField) (index : Nat) (x y : ℚ) :
    List ExtractedField :=
  match fields[index]? with
  | some f => fields.set index (moveCoordinatesField f x y)
  | none => fields

/-! ## Display ordering and filtering (ReviewPanel.tsx lines 197-211) -/

/-- The review filter state (`filterMode`). -/
inductive FilterMode where
  | ALL
  | ATTENTION
deriving DecidableEq, Repr

/-- A field paired with its `originalIndex`, as produced by
`fields.map((f, i) => ({ ...f, originalIndex: i }))`. -/
structure IndexedField where
  field : ExtractedField
  originalIndex : Nat
deriving DecidableEq, Repr

/-- `f.validation?.status !== "VALID"`: a missing validation object also
counts as needing attention. -/
def needsAttention (f : ExtractedField) : Bool :=
  !(f.validation.map (fun v => v.status) == some VStatus.VALID)

/-- The sort comparator of `displayedFields` as the induced
"`a` sorts at or before `b`" relation (comparator result ≤ 0): primary key
needs-attention first, secondary key unverified first, ties by original
index. -/
def fieldLE (a b : IndexedField) : Bool :=
  let aAttn := needsAttention a.field
  let bAttn := needsAttention b.field
  if aAttn && !bAttn then true
  else if !aAttn && bAttn then false
  else if !a.field.isVerified && b.field.isVerified then true
  else if a.field.isVerified && !b.field.isVerified then false
  else a.originalIndex ≤ b.originalIndex

/-- `fieldLE` as a `Prop`-valued relation for the sorting lemmas. -/
def fieldBefore (a b : IndexedField) : Prop := fieldLE a b = true

instance : DecidableRel fieldBefore :=
  fun a b => inferInstanceAs (Decidable (fieldLE a b = true))

/-- The trailing `.filter` of `displayedFields`:
`filterMode === "ALL" || (status !== "VALID" && !isVerified)`. -/
def attentionFilter (mode : FilterMode) (f : IndexedField) : Bool :=
  mode == .ALL || (needsAttention f.field && !f.field.isVerified)

/-- `displayedFields`: index the canonical list, sort it with the
comparator, then filter. The in-place `.sort` of the source on the freshly
mapped array (a consistent comparator, total and transitive — see the
instances below) is modelled by a stable insertion sort, which returns the
same list because original indices are distinct. -/
def displayedFields (fields : List ExtractedField) (mode : FilterMode) :
    List IndexedField :=
  (List.insertionSort fieldBefore (fields.enum.map (fun p => ⟨p.2, p.1⟩))).filter
    (attentionFilter mode)

/-- The three-part sort key realized by the comparator: attention flag
(0 = needs attention), verified flag (0 = unverified), original index. -/
def sortKey (f : IndexedField) : Nat × Nat × Nat :=
  (if needsAttention f.field then 0 else 1,
   if f.field.isVerified then 1 else 0,
   f.originalIndex)

/-- Lexicographic order on the three-part sort key. -/
def lexLe (p q : Nat × Nat × Nat) : Prop :=
  p.1 < q.1 ∨ (p.1 = q.1 ∧ (p.2.1 < q.2.1 ∨ (p.2.1 = q.2.1 ∧ p.2.2 ≤ q.2.2)))

theorem fieldLE_iff_lexLe (a b : IndexedField) :
    fieldLE a b = true ↔ lexLe (sortKey a) (sortKey b) := by
  unfold fieldLE sortKey lexLe
  cases h1 : needsAttention a.field <;> cases h2 : needsAttention b.field <;>
    cases h3 : a.field.isVerified <;> cases h4 : b.field.isVerified <;>
      simp <;> omega

instance : IsTrans IndexedField fieldBefore :=
  ⟨fun a b c hab hbc => by
    have h1 := (fieldLE_iff_lexLe a b).mp hab
    have h2 := (fieldLE_iff_lexLe b c).mp hbc
    refine (fieldLE_iff_lexLe a c).mpr ?_
    unfold lexLe at *
    omega⟩

instance : IsTotal IndexedField fieldBefore :=
  ⟨fun a b => by
    rcases Nat.le_total a.originalIndex b.originalIndex with h | h
    · by_cases hab : lexLe (sortKey a) (sortKey b)
      · exact Or.inl ((fieldLE_iff_lexLe a b).mpr hab)
      · refine Or.inr ((fieldLE_iff_lexLe b a).mpr ?_)
        unfold lexLe at *
        omega
    · by_cases hba : lexLe (sortKey b) (sortKey a)
      · exact Or.inr ((fieldLE_iff_lexLe b a).mpr hba)
      · refine Or.inl ((fieldLE_iff_lexLe a b).mpr ?_)
        unfold lexLe at *
        omega⟩

/-! ## Claim theorems -/

/-- Claim C1: the coordinate transform maps normalized top-left-origin
`(x, y)` in `[0,1000]²` with page size `(width, height)` to
`px = (x/1000)*width`, `py = height - (y/1000)*height`; converting to
physical and back with the same page dimensions recovers `(x, y)`;
`(0, 0)` maps to the physical top-left `(0, height)` and `(1000, 1000)`
to the physical bottom-right `(width, 0)`. -/
theorem coordinate_transform_roundtrip (x y width height : ℚ)
    (hx0 : 0 ≤ x) (hx1 : x ≤ 1000) (hy0 : 0 ≤ y) (hy1 : y ≤ 1000)
    (hw : 0 < width) (hh : 0 < height) :
    toPhysical x y width height = (x / 1000 * width, height - y / 1000 * height) ∧
    fromPhysical (toPhysical x y width height).1 (toPhysical x y width height).2
      width height = (x, y) ∧
    toPhysical 0 0 width height = (0, height) ∧
    toPhysical 1000 1000 width height = (width, 0) := by
  refine ⟨rfl, ?_, ?_, ?_⟩
  · unfold toPhysical fromPhysical
    have hw' : width ≠ 0 := ne_of_gt hw
    have hh' : height ≠ 0 := ne_of_gt hh
    refine Prod.ext ?_ ?_ <;> simp only [] <;> field_simp <;> ring
  · unfold toPhysical
    norm_num
  · unfold toPhysical
    norm_num

/-- Claim C1 witness: the round trip recovers `(250, 750)` on a US-letter
sized page. -/
theorem coordinate_transform_roundtrip_witness :
    fromPhysical (toPhysical 250 750 612 792).1 (toPhysical 250 750 612 792).2
      612 792 = (250, 750) :=
  (coordinate_transform_roundtrip 250 750 612 792 (by norm_num) (by norm_num)
    (by norm_num) (by norm_num) (by norm_num) (by norm_num)).2.1

/-- Claim C2: in NamedFields mode, writing a value to a checkbox-typed
field checks the box iff the value compared case-insensitively equals
`"true"` or `"yes"`; any other value (including the empty string) leaves
the box explicitly unchecked and never indeterminate, whatever its prior
state. -/
theorem checkbox_write_semantics (n : String) (st : CheckboxState) (v : String) :
    applyValueToField (.checkBox n st) v =
      .checkBox n (if checkboxChecked v then .checked else .unchecked) ∧
    (checkboxChecked v = true ↔
      (caseInsensitiveEq v "true" = true ∨ caseInsensitiveEq v "yes" = true)) ∧
    (if checkboxChecked v then CheckboxState.checked else .unchecked) ≠
      .indeterminate ∧
    applyValueToField (.checkBox n st) "" = .checkBox n .unchecked := by
  refine ⟨rfl, ?_, ?_, rfl⟩
  · unfold checkboxChecked caseInsensitiveEq
    have h1 : jsToLower "true" = "true" := rfl
    have h2 : jsToLower "yes" = "yes" := rfl
    rw [h1, h2]
    simp
  · cases h : checkboxChecked v <;> simp

/-- Claim C4 counterexample input: a field whose machine validation is
`INVALID` and carries a suggestion. -/
def invalidDateField : ExtractedField :=
  { label := "Date"
    value := "2025-13-40"
    validation := some
      { status := .INVALID
        message := some "Invalid date format"
        suggestion := some "2025-01-28" }
    isVerified := false }

/-- Claim C4 counterexample: editing does not discard the prior
suggestion — the source spreads the prior validation object, so the
resulting validation is not exactly
`{status: VALID, message: "Manually verified"}`. -/
theorem edit_discards_suggestion_false :
    (handleUpdateField invalidDateField "2025-02-01").validation ≠
      some { status := .VALID, message := some "Manually verified",
             suggestion := none } := by
  decide

/-- Claim C4 amended: for every field and every new value, editing yields
a field whose value is the new value, whose `isVerified` is true, and
whose validation has status `VALID` and message `"Manually verified"` with
the prior message discarded but the prior suggestion preserved, regardless
of prior state (including a previously `INVALID` field); all other
attributes are untouched. -/
theorem edit_forces_verified_and_valid (f : ExtractedField) (newValue : String) :
    (handleUpdateField f newValue).value = newValue ∧
    (handleUpdateField f newValue).isVerified = true ∧
    (handleUpdateField f newValue).validation =
      some { status := .VALID, message := some "Manually verified",
             suggestion := f.validation.bind (fun v => v.suggestion) } ∧
    (handleUpdateField f newValue).key = f.key ∧
    (handleUpdateField f newValue).label = f.label ∧
    (handleUpdateField f newValue).sourceContext = f.sourceContext ∧
    (handleUpdateField f newValue).coordinates = f.coordinates :=
  ⟨rfl, rfl, rfl, rfl, rfl, rfl, rfl⟩

/-- Claim C8: the document field inspector never raises past its boundary:
every input yields an `ok` list; corrupted input and a well-formed
document with no interactive fields both yield the empty list. -/
theorem inspector_never_raises (input : PdfInput) :
    (∃ l, getPdfFields input = .ok l) ∧
    getPdfFields .corrupt = .ok [] ∧
    (∀ pages : List Page, getPdfFields (.wellFormed ⟨[], pages⟩) = .ok []) := by
  refine ⟨?_, rfl, fun pages => rfl⟩
  cases input with
  | wellFormed doc => exact ⟨_, rfl⟩
  | corrupt => exact ⟨[], rfl⟩

/-- Claim C10: `applySuggestion` is idempotent on every field — the edit it
performs preserves `validation.suggestion`, so a second application
re-writes the same value and state. -/
theorem applySuggestion_idempotent (f : ExtractedField) :
    applySuggestionField (applySuggestionField f) = applySuggestionField f := by
  unfold applySuggestionField handleUpdateField
  rcases hv : f.validation with _ | v
  · simp [hv]
  · rcases hs : v.suggestion with _ | s
    · simp [hv, hs]
    · by_cases hse : s = ""
      · simp [hv, hs, hse]
      · simp [hv, hs, hse]

/-- The overlay loop body never throws for a single field: the page-range
guard ensures the page access succeeds. -/
theorem overlayField_ok (pages : List Page) (f : ExtractedField) :
    ∃ l, overlayField pages f = .ok l := by
  unfold overlayField
  by_cases hval : f.value = ""
  · exact ⟨[], by simp [hval]⟩
  · rcases hc : f.coordinates with _ | c
    · exact ⟨[], by simp [hval, hc]⟩
    · simp only [hval, hc, if_false]
      by_cases hrange : c.pageIndex < 0 ∨ (pages.length : Int) ≤ c.pageIndex
      · exact ⟨[], by simp [hrange]⟩
      · have hlt : c.pageIndex.toNat < pages.length := by omega
        simp only [if_neg hrange, List.getElem?_eq_getElem hlt]
        exact ⟨_, rfl⟩

/-- A field meeting a skip condition contributes no draw operation. -/
theorem overlayField_skip (pages : List Page) (f : ExtractedField)
    (h : skipsOverlayField pages f) : overlayField pages f = .ok [] := by
  unfold overlayField
  rcases h with hval | hc | ⟨c, hc, hrange⟩
  · simp [hval]
  · by_cases hval : f.value = ""
    · simp [hval]
    · simp [hval, hc]
  · by_cases hval : f.value = ""
    · simp [hval]
    · simp [hval, hc, hrange]

/-- The overlay fold never throws, whatever the accumulator. -/
theorem overlay_foldlM_ok (pages : List Page) (fields : List ExtractedField)
    (acc : List DrawOp) :
    ∃ ds, fields.foldlM
      (fun acc f => (overlayField pages f).map (fun l => acc ++ l)) acc =
        Except.ok ds := by
  induction fields generalizing acc with
  | nil => exact ⟨acc, rfl⟩
  | cons f fs ih =>
    obtain ⟨l, hl⟩ := overlayField_ok pages f
    simpa [List.foldlM_cons, hl, Except.map] using ih (acc ++ l)

/-- Claim C3: in CoordinateOverlay mode, every field with an empty value,
missing coordinates, or a page index outside `[0, page count)` is skipped
without raising an error (removing such a field from the batch changes
nothing), and the fill always returns the fully re-rendered document —
`ok` with all the pages — even when zero fields are drawn. -/
theorem overlay_skips_and_total (pages : List Page) (fields : List ExtractedField) :
    (∃ draws, createFilledPdfOverlay pages fields = .ok ⟨pages, draws⟩) ∧
    createFilledPdfOverlay pages [] = .ok ⟨pages, []⟩ ∧
    (∀ f l₁ l₂, skipsOverlayField pages f → fields = l₁ ++ f :: l₂ →
      createFilledPdfOverlay pages fields = createFilledPdfOverlay pages (l₁ ++ l₂)) := by
  refine ⟨?_, rfl, ?_⟩
  · obtain ⟨ds, hds⟩ := overlay_foldlM_ok pages fields []
    exact ⟨ds, by unfold createFilledPdfOverlay; rw [hds]; rfl⟩
  · rintro f l₁ l₂ hskip rfl
    unfold createFilledPdfOverlay
    obtain ⟨ds₁, h₁⟩ := overlay_foldlM_ok pages l₁ []
    rw [List.foldlM_append, List.foldlM_append, h₁]
    simp [bind, Except.bind, List.foldlM_cons, overlayField_skip pages f hskip,
      Except.map]

/-- Claim C3 witness: on a one-page document, a field with an empty value
is skipped (the batch equals the batch without it) and the empty batch
still yields the saved document. -/
theorem overlay_skips_and_total_witness :
    createFilledPdfOverlay [⟨612, 792⟩]
        [{ label := "Name", value := "", coordinates := some ⟨0, 500, 500⟩ }] =
      createFilledPdfOverlay [⟨612, 792⟩] [] ∧
    createFilledPdfOverlay [⟨612, 792⟩] [] = .ok ⟨[⟨612, 792⟩], []⟩ :=
  ⟨(overlay_skips_and_total [⟨612, 792⟩]
      [{ label := "Name", value := "", coordinates := some ⟨0, 500, 500⟩ }]).2.2
      _ [] [] (Or.inl rfl) rfl,
   (overlay_skips_and_total [⟨612, 792⟩]
      [{ label := "Name", value := "", coordinates := some ⟨0, 500, 500⟩ }]).2.1⟩

/-- Claim C7 counterexample inputs: two fields both carrying the (empty
string) key `""`. -/
def emptyKeyField1 : ExtractedField := { key := some "", label := "k1", value := "a" }

/-- Second field carrying the empty-string key. -/
def emptyKeyField2 : ExtractedField := { key := some "", label := "k2", value := "b" }

/-- Claim C7 counterexample: two fields carry the same key `""`, yet the
mapping holds nothing for that key — the JavaScript truthiness test
`if (f.key)` also drops fields whose key is the empty string, so the value
of the last such field does not win. -/
theorem fieldmap_lastwins_false :
    buildFieldMap [emptyKeyField1, emptyKeyField2] "" ≠ some "b" := by
  decide

/-- Unfolding the field-map fold over the last field of the list. -/
theorem buildFieldMap_append_single (l : List ExtractedField) (f : ExtractedField)
    (q : String) :
    buildFieldMap (l ++ [f]) q =
      match f.key with
      | some k =>
          if k = "" then buildFieldMap l q
          else if q = k then some f.value else buildFieldMap l q
      | none => buildFieldMap l q := by
  unfold buildFieldMap
  rw [List.foldl_append]
  simp only [List.foldl_cons, List.foldl_nil]
  rcases f.key with _ | k'
  · rfl
  · by_cases hk' : k' = "" <;> simp [hk']

/-- Unfolding the last carrier of a key over the last field of the list. -/
theorem lastFieldWithKey_append_single (l : List ExtractedField) (f : ExtractedField)
    (k : String) :
    lastFieldWithKey (l ++ [f]) k =
      if f.key == some k then some f else lastFieldWithKey l k := by
  unfold lastFieldWithKey
  rw [List.reverse_append]
  simp only [List.reverse_singleton, List.singleton_append]
  cases h : (f.key == some k) with
  | true => simp [List.find?_cons_of_pos, h]
  | false => simp [List.find?_cons_of_neg, h]

/-- Last-write-wins characterization of the field map at every nonempty
key. -/
theorem buildFieldMap_lookup (fields : List ExtractedField) (k : String)
    (hk : k ≠ "") :
    buildFieldMap fields k = (lastFieldWithKey fields k).map (fun f => f.value) := by
  induction fields using List.reverseRecOn with
  | nil => rfl
  | append_singleton l f ih =>
    rw [buildFieldMap_append_single, lastFieldWithKey_append_single]
    rcases hkey : f.key with _ | k'
    · simpa [hkey] using ih
    · by_cases hk' : k' = ""
      · subst hk'
        have hne : ((some "" : Option String) == some k) = false :=
          beq_eq_false_iff_ne.mpr (fun h => hk (Option.some.inj h).symm)
        simpa [hkey, hne] using ih
      · by_cases hkk : k = k'
        · subst hkk
          simp [hkey, hk']
        · have hne : ((some k' : Option String) == some k) = false :=
            beq_eq_false_iff_ne.mpr
              (fun h => hkk (Option.some.inj h).symm)
          simp only [hkey, hne, hk', if_false, Bool.false_eq_true, if_neg hkk]
          exact ih

/-- Claim C7 amended: in NamedFields mode the key-to-value mapping is
built only from fields whose key is present and nonempty; for every
nonempty key the value of the last field carrying it wins
(last-write-wins); the empty-string key is never written; and a field
lacking a key contributes no write at all. -/
theorem fieldmap_lastwins (fields : List ExtractedField) (k : String) (hk : k ≠ "") :
    buildFieldMap fields k = (lastFieldWithKey fields k).map (fun f => f.value) ∧
    buildFieldMap fields "" = none ∧
    (∀ f, f.key = none → buildFieldMap (fields ++ [f]) = buildFieldMap fields) := by
  refine ⟨buildFieldMap_lookup fields k hk, ?_, ?_⟩
  · induction fields using List.reverseRecOn with
    | nil => rfl
    | append_singleton l f ih =>
      rw [buildFieldMap_append_single]
      rcases f.key with _ | k'
      · exact ih
      · by_cases hk' : k' = ""
        · simpa [hk'] using ih
        · simp only [if_neg hk', if_neg (Ne.symm hk')]
          exact ih
  · intro f hf
    funext q
    rw [buildFieldMap_append_single, hf]

/-- Claim C7 demo input: a duplicate key `"name"` with an intervening
keyless field. -/
def demoFields : List ExtractedField :=
  [{ key := some "name", label := "n1", value := "John" },
   { label := "n2", value := "x" },
   { key := some "name", label := "n3", value := "Jane" }]

/-- Claim C7 witness: applied to the demo list at the nonempty key
`"name"`, the lookup is the value of the last carrier and the empty key is
unmapped. -/
theorem fieldmap_lastwins_witness :
    buildFieldMap demoFields "name" =
      (lastFieldWithKey demoFields "name").map (fun f => f.value) ∧
    buildFieldMap demoFields "" = none := by
  have h := fieldmap_lastwins demoFields "name" (by decide)
  exact ⟨h.1, h.2.1⟩

/-- Claim C5/C6 example field: `VALID`, unverified. -/
def exFieldA : ExtractedField :=
  { label := "A", value := "a", validation := some { status := .VALID },
    isVerified := false }

/-- Claim C5 example field: `INVALID`, unverified. -/
def exFieldB : ExtractedField :=
  { label := "B", value := "b", validation := some { status := .INVALID },
    isVerified := false }

/-- Claim C5 example field: `WARNING`, verified. -/
def exFieldC : ExtractedField :=
  { label := "C", value := "c", validation := some { status := .WARNING },
    isVerified := true }

/-- Claim C5 counterexample: on the example given by the claim itself,
`[A: VALID unverified, B: INVALID unverified, C: WARNING verified]` the
displayed order is not `[B, A, C]` — the primary key of the comparator is
needs-attention alone, ignoring verification, so the `WARNING` verified
field `C` sorts before the resolved field `A`. -/
theorem display_sort_order_false :
    (displayedFields [exFieldA, exFieldB, exFieldC] .ALL).map
        (fun f => f.field.label) ≠ ["B", "A", "C"] := by
  decide

/-- The `ALL` filter keeps every element. -/
theorem filter_ALL_eq_self (l : List IndexedField) :
    l.filter (attentionFilter .ALL) = l :=
  List.filter_eq_self.mpr (fun _ _ => rfl)

/-- Claim C5 amended: the derived display order sorts with primary key
needs-attention before resolved (regardless of verification), secondary
key unverified before verified, and ties broken by original insertion
index; it is a permutation of the index-tagged canonical list (the
canonical list itself is never reordered); for the three fields
`[A: VALID unverified, B: INVALID unverified, C: WARNING verified]` the
displayed order is `[B, C, A]`. -/
theorem display_sort_order (fields : List ExtractedField) :
    (displayedFields fields .ALL).Perm
      (fields.enum.map (fun p => ⟨p.2, p.1⟩)) ∧
    List.Sorted (fun a b => lexLe (sortKey a) (sortKey b))
      (displayedFields fields .ALL) ∧
    (displayedFields [exFieldA, exFieldB, exFieldC] .ALL).map
        (fun f => f.field.label) = ["B", "C", "A"] := by
  refine ⟨?_, ?_, by decide⟩
  · unfold displayedFields
    rw [filter_ALL_eq_self]
    exact List.perm_insertionSort fieldBefore _
  · unfold displayedFields
    rw [filter_ALL_eq_self]
    have hs := List.sorted_insertionSort fieldBefore
      (fields.enum.map (fun p => ⟨p.2, p.1⟩))
    exact hs.imp (fun h => (fieldLE_iff_lexLe _ _).mp h)

/-- Claim C6 example field: `VALID`, verified. -/
def exFieldA6 : ExtractedField :=
  { label := "A", value := "a", validation := some { status := .VALID },
    isVerified := true }

/-- Claim C6 example field: `WARNING`, unverified. -/
def exFieldB6 : ExtractedField :=
  { label := "B", value := "b", validation := some { status := .WARNING },
    isVerified := false }

/-- Claim C6 example field: `INVALID`, verified. -/
def exFieldC6 : ExtractedField :=
  { label := "C", value := "c", validation := some { status := .INVALID },
    isVerified := true }

/-- The `ATTENTION` filter selects exactly the non-`VALID` unverified
fields. -/
theorem attentionFilter_ATTENTION_iff (f : IndexedField) :
    attentionFilter .ATTENTION f = true ↔
      (f.field.validation.map (fun v => v.status) ≠ some .VALID ∧
        f.field.isVerified = false) := by
  unfold attentionFilter needsAttention
  simp

/-- The `ATTENTION` view is the `ALL` view filtered by the attention
predicate. -/
theorem displayedFields_ATTENTION_eq (fields : List ExtractedField) :
    displayedFields fields .ATTENTION =
      (displayedFields fields .ALL).filter (attentionFilter .ATTENTION) := by
  unfold displayedFields
  rw [filter_ALL_eq_self]

/-- Claim C6: filtering to `ATTENTION` yields exactly the displayed fields
whose validation status is not `VALID` and whose `isVerified` is false —
a verified field is excluded even when its status is `WARNING` or
`INVALID`; for `[A: VALID verified, B: WARNING unverified,
C: INVALID verified]` the filtered view is exactly `[B]`. -/
theorem attention_filter_semantics (fields : List ExtractedField) :
    (∀ f : IndexedField,
      f ∈ displayedFields fields .ATTENTION ↔
        (f ∈ displayedFields fields .ALL ∧
          f.field.validation.map (fun v => v.status) ≠ some .VALID ∧
          f.field.isVerified = false)) ∧
    (displayedFields [exFieldA6, exFieldB6, exFieldC6] .ATTENTION).map
        (fun f => f.field.label) = ["B"] := by
  refine ⟨?_, by decide⟩
  intro f
  rw [displayedFields_ATTENTION_eq, List.mem_filter, attentionFilter_ATTENTION_iff]

/-- Frame property of `List.set`: the length is unchanged and every other
position is unchanged. -/
theorem set_frame (fields : List ExtractedField) (i : Nat) (x : ExtractedField) :
    (fields.set i x).length = fields.length ∧
    ∀ j, j ≠ i → (fields.set i x)[j]? = fields[j]? :=
  ⟨List.length_set fields i x, fun _ hj => List.getElem?_set_ne (Ne.symm hj)⟩

/-- Claim C9: each store mutation (`edit`, `toggleVerify`,
`applySuggestion`, `moveCoordinates`) replaces exactly the element at the
given index by its transformed value and leaves every other element and
the list length unchanged. -/
theorem store_mutations_frame (fields : List ExtractedField) (i : Nat) (v : String)
    (x y : ℚ) (hi : i < fields.length) :
    ((handleUpdate fields i v).length = fields.length ∧
      (∀ j, j ≠ i → (handleUpdate fields i v)[j]? = fields[j]?) ∧
      (handleUpdate fields i v)[i]? = some (handleUpdateField fields[i] v)) ∧
    ((toggleVerify fields i).length = fields.length ∧
      (∀ j, j ≠ i → (toggleVerify fields i)[j]? = fields[j]?) ∧
      (toggleVerify fields i)[i]? = some (toggleVerifyField fields[i])) ∧
    ((applySuggestion fields i).length = fields.length ∧
      (∀ j, j ≠ i → (applySuggestion fields i)[j]? = fields[j]?) ∧
      (applySuggestion fields i)[i]? = some (applySuggestionField fields[i])) ∧
    ((moveCoordinates fields i x y).length = fields.length ∧
      (∀ j, j ≠ i → (moveCoordinates fields i x y)[j]? = fields[j]?) ∧
      (moveCoordinates fields i x y)[i]? =
        some (moveCoordinatesField fields[i] x y)) := by
  have hsome : fields[i]? = some fields[i] := List.getElem?_eq_getElem hi
  have h1 : handleUpdate fields i v = fields.set i (handleUpdateField fields[i] v) := by
    unfold handleUpdate
    rw [hsome]
  have h2 : toggleVerify fields i = fields.set i (toggleVerifyField fields[i]) := by
    unfold toggleVerify
    rw [hsome]
  have h3 : applySuggestion fields i =
      fields.set i (applySuggestionField fields[i]) := by
    unfold applySuggestion
    rw [hsome]
  have h4 : moveCoordinates fields i x y =
      fields.set i (moveCoordinatesField fields[i] x y) := by
    unfold moveCoordinates
    rw [hsome]
  have hlen : i < fields.length := hi
  refine ⟨⟨?_, ?_, ?_⟩, ⟨?_, ?_, ?_⟩, ⟨?_, ?_, ?_⟩, ⟨?_, ?_, ?_⟩⟩ <;>
    simp only [h1, h2, h3, h4]
  · exact (set_frame fields i _).1
  · exact (set_frame fields i _).2
  · exact List.getElem?_set_self hlen
  · exact (set_frame fields i _).1
  · exact (set_frame fields i _).2
  · exact List.getElem?_set_self hlen
  · exact (set_frame fields i _).1
  · exact (set_frame fields i _).2
  · exact List.getElem?_set_self hlen
  · exact (set_frame fields i _).1
  · exact (set_frame fields i _).2
  · exact List.getElem?_set_self hlen

/-- Claim C9 witness: on a concrete two-element store, every mutation at
index 0 keeps the length at 2. -/
theorem store_mutations_frame_witness :
    (handleUpdate [exFieldA, exFieldB] 0 "z").length = 2 ∧
    (toggleVerify [exFieldA, exFieldB] 0).length = 2 ∧
    (applySuggestion [exFieldA, exFieldB] 0).length = 2 ∧
    (moveCoordinates [exFieldA, exFieldB] 0 5 5).length = 2 := by
  have h := store_mutations_frame [exFieldA, exFieldB] 0 "z" 5 5 (by decide)
  exact ⟨h.1.1, h.2.1.1, h.2.2.1.1, h.2.2.2.1⟩

end Renten
